import Mathlib

/-!
Verification of the seat-allocation core of `mapa_5.43.py`.

The Python program allocates two shuffled pools of students to seats in a
sequence of rooms.  For each room it reads the grid dimensions from the
workbook (cells A2 and B2 of the room's sheet), walks the columns in
ascending order and the rows inside each column in ascending order, takes
pool 1 on even columns and pool 2 on odd columns, skips blocked seats, and
pops the front of the active pool into the current cell.  Afterwards it
reports how many students of each pool were left over, and a report builder
flattens the per-room grids into one record per occupied seat.

This file is a shallow embedding of that code: Python lists become Lean
lists, the two student DataFrames become an explicit record type, the
mutable grid becomes explicit state passing with `List.set`, Python
exceptions become `Except`.
-/

namespace MapaProvas

/-- Scalar value held by a spreadsheet cell or a record field of the student
DataFrames (a string, a number, or a missing value). -/
inductive Value where
  | str : String → Value
  | num : Int → Value
  | null : Value
deriving DecidableEq, Repr

/-- One student record after projection to the four columns the allocation
uses (`colunas_desejadas = ["nome", "turma", "RM", "numero"]` in the
source). -/
structure Student where
  nome : Value
  turma : Value
  RM : Value
  numero : Value
deriving DecidableEq, Repr

/-- A room's seat grid: `mapa[lin][col]` is `none` for an empty seat, as in
the Python `mapa = [[None for _ in range(n_colunas)] for _ in range(n_linhas)]`. -/
abbrev Grid := List (List (Option Student))

/-- Reading `mapa[lin][col]`; out-of-range reads yield `none` (the code only
reads in range, so any total extension is faithful). -/
def getCell (mapa : Grid) (lin col : Nat) : Option Student :=
  (mapa.getD lin []).getD col none

/-- Writing `mapa[lin][col] = v`; out-of-range writes are no-ops (the code
only writes in range). -/
def setCell (mapa : Grid) (lin col : Nat) (v : Option Student) : Grid :=
  mapa.set lin ((mapa.getD lin []).set col v)

/-- The freshly initialised all-empty grid of line 85 of the source. -/
def emptyGrid (nLin nCol : Nat) : Grid :=
  List.replicate nLin (List.replicate nCol none)

/-- The grid is a rectangle of `nLin` rows by `nCol` columns. -/
def Rect (nLin nCol : Nat) (mapa : Grid) : Prop :=
  mapa.length = nLin ∧ ∀ row ∈ mapa, row.length = nCol

/-- Number of occupied cells in one row. -/
def contaLinha (row : List (Option Student)) : Nat :=
  row.countP (fun c => c.isSome)

/-- Number of occupied cells in a grid. -/
def countOccupied (mapa : Grid) : Nat :=
  (mapa.map contaLinha).sum

/-- Intermediate state of the allocation: the grid under construction and the
two pools still to be seated (the local lists of lines 76-77 of the source). -/
structure AllocState where
  mapa : Grid
  g1 : List Student
  g2 : List Student
deriving DecidableEq, Repr

/-- The cell snapshot of lines 97-102: a fresh record built from the four
fields of the popped student.  The `.get` defaults of the Python code are
unreachable because the pools were projected to exactly these four columns,
so the snapshot carries the student's own fields. -/
def snapshot (aluno : Student) : Student :=
  { nome := aluno.nome, turma := aluno.turma, RM := aluno.RM, numero := aluno.numero }

/-- One seat visit (lines 88-102): `p = (col, lin)`.  The active pool is
pool 1 on even columns and pool 2 on odd columns; if the seat is blocked or
the active pool is empty nothing happens, otherwise the front of the active
pool is popped into the cell. -/
def passoAssento (retiradas : List (Nat × Nat)) (st : AllocState) (p : Nat × Nat) :
    AllocState :=
  if retiradas.contains (p.2, p.1) then st
  else
    match (if p.1 % 2 == 0 then st.g1 else st.g2) with
    | [] => st
    | aluno :: resto =>
        { mapa := setCell st.mapa p.2 p.1 (some (snapshot aluno))
          g1 := if p.1 % 2 == 0 then resto else st.g1
          g2 := if p.1 % 2 == 0 then st.g2 else resto }

/-- One room (lines 79-104): iterate the columns in ascending order and the
rows inside each column in ascending order, starting from the all-empty
grid. -/
def alocarUmaSala (retiradas : List (Nat × Nat)) (nLin nCol : Nat)
    (g1 g2 : List Student) : AllocState :=
  (List.range nCol).foldl
    (fun st col =>
      (List.range nLin).foldl (fun st2 lin => passoAssento retiradas st2 (col, lin)) st)
    ⟨emptyGrid nLin nCol, g1, g2⟩

/-- The list of seat positions `(col, lin)` in the order the room traversal
of lines 88-93 visits them: column-major, rows ascending inside a column. -/
def parsSala (nLin nCol : Nat) : List (Nat × Nat) :=
  (List.range nCol).flatMap (fun col => (List.range nLin).map (fun lin => (col, lin)))

/-- The conserved quantity of claim C1: occupied seats plus students still
pooled. -/
def medida (st : AllocState) : Nat :=
  countOccupied st.mapa + st.g1.length + st.g2.length

/-- Column-parity property of a grid with respect to the two initial pools:
every occupant of an even column was drawn from pool 1 and every occupant of
an odd column from pool 2. -/
def ParidadeProp (a1 a2 : List Student) (mapa : Grid) : Prop :=
  ∀ lin col s, getCell mapa lin col = some s →
    (col % 2 = 0 → s ∈ a1) ∧ (col % 2 = 1 → s ∈ a2)

/-- Exceptions the modelled Python code can raise: `KeyError` from pandas
column access, `TypeError` from `int(None)`, `ValueError` from `int` of a
non-numeric string. -/
inductive PyError where
  | keyError : PyError
  | typeError : PyError
  | valueError : PyError
deriving DecidableEq, Repr

/-- Value of a worksheet cell as far as `int(...)` is concerned: an actual
number, a string holding an integer literal, a non-numeric string, or an
empty cell (`None`). -/
inductive CellVal where
  | intVal : Int → CellVal
  | numStr : Int → CellVal
  | badStr : CellVal
  | vazio : CellVal
deriving DecidableEq, Repr

/-- The Python `int(...)` conversion applied to a worksheet cell value:
`int(None)` raises `TypeError`, `int` of a non-numeric string raises
`ValueError`. -/
def pyInt : CellVal → Except PyError Int
  | .intVal n => .ok n
  | .numStr n => .ok n
  | .badStr => .error .valueError
  | .vazio => .error .typeError

/-- A room's worksheet, restricted to the two cells the allocation reads:
`A2` (row count) and `B2` (column count). -/
structure Aba where
  a2 : CellVal
  b2 : CellVal
deriving DecidableEq, Repr

/-- Python dict assignment `mapas[sala_nome] = mapa` on an
insertion-ordered association list: an existing key keeps its position and
gets the new value, a new key is appended. -/
def dictSet (m : List (String × Grid)) (k : String) (v : Grid) :
    List (String × Grid) :=
  if m.any (fun q => q.1 == k) then
    m.map (fun q => if q.1 == k then (k, v) else q)
  else m ++ [(k, v)]

/-- The room loop of lines 79-104: for each sheet name, read and convert the
dimensions (a conversion error aborts the whole run, as the Python exception
would), look up the room's blocked seats with default `[]` (line 83), and
allocate the room, threading the two pools through.  Negative dimensions
behave like Python `range`/list multiplication: they give no rows or
columns, hence `Int.toNat`. -/
def loopSalas (wb : String → Aba) (ret : String → Option (List (Nat × Nat))) :
    List String → List (String × Grid) → List Student → List Student →
    Except PyError (List (String × Grid) × List Student × List Student)
  | [], mapas, g1, g2 => .ok (mapas, g1, g2)
  | sala :: resto, mapas, g1, g2 =>
    match pyInt (wb sala).a2 with
    | .error e => .error e
    | .ok nLin =>
      match pyInt (wb sala).b2 with
      | .error e => .error e
      | .ok nCol =>
        let st := alocarUmaSala ((ret sala).getD []) nLin.toNat nCol.toNat g1 g2
        loopSalas wb ret resto (dictSet mapas sala st.mapa) st.g1 st.g2

/-- The allocation engine `gerar_mapas_todas_salas` (lines 58-110).  Lines
76-77 copy the caller's pool lists, so the function is a pure function of
the pool values; it returns the per-room grids in sheet order together with
the leftover counts of the two pools, which the source surfaces in the
warning of lines 106-108. -/
def gerar_mapas_todas_salas (alunos1 alunos2 : List Student) (wb : String → Aba)
    (abas_salas : List String)
    (posicoes_retiradas_por_sala : String → Option (List (Nat × Nat))) :
    Except PyError (List (String × Grid) × Nat × Nat) :=
  match loopSalas wb posicoes_retiradas_por_sala abas_salas [] alunos1 alunos2 with
  | .error e => .error e
  | .ok (mapas, r1, r2) => .ok (mapas, r1.length, r2.length)

/-- Total number of occupied seats over all rooms of the result. -/
def occTotal (mapas : List (String × Grid)) : Nat :=
  (mapas.map (fun q => countOccupied q.2)).sum

/-! Concrete example data: two pools `[A, B]` and `[C]`, one room "S" of
2 rows by 2 columns with seat (1,1) blocked — the worked example of the
specification. -/

def stA : Student := ⟨Value.str "A", Value.str "t1", Value.str "r1", Value.num 1⟩

def stB : Student := ⟨Value.str "B", Value.str "t1", Value.str "r2", Value.num 2⟩

def stC : Student := ⟨Value.str "C", Value.str "t2", Value.str "r3", Value.num 3⟩

def exAlunos1 : List Student := [stA, stB]

def exAlunos2 : List Student := [stC]

def exWb : String → Aba := fun _ => ⟨CellVal.intVal 2, CellVal.intVal 2⟩

def exRet : String → Option (List (Nat × Nat)) := fun _ => some [(1, 1)]

def exGrid : Grid := [[some stA, some stC], [some stB, none]]

def exMapas : List (String × Grid) := [("S", exGrid)]

/-- Workbook whose only room sheet declares 0 rows and 3 columns. -/
def exWbZero : String → Aba := fun _ => ⟨CellVal.intVal 0, CellVal.intVal 3⟩

/-- Observable effect of one call to `gerar_mapas_todas_salas` on the
caller's list objects: lines 74-77 of the source copy the argument lists
("Faz cópias das listas de alunos para que a alocação possa ser gerada
novamente") and every `pop(0)` acts on the copies, so the caller's lists
are unchanged when the call returns.  The first component is the post-call
state of the caller's two pool objects, the second the returned result. -/
def chamada_gerar_mapas (alunos1 alunos2 : List Student) (wb : String → Aba)
    (abas_salas : List String)
    (posicoes_retiradas_por_sala : String → Option (List (Nat × Nat))) :
    (List Student × List Student) ×
      Except PyError (List (String × Grid) × Nat × Nat) :=
  ((alunos1, alunos2),
    gerar_mapas_todas_salas alunos1 alunos2 wb abas_salas
      posicoes_retiradas_por_sala)

/-- A pandas DataFrame as this program touches it: the column schema and the
rows; a row gives the value held under each column name. -/
structure DataFrame where
  cols : List String
  rows : List (String → Value)

/-- The four columns the allocation keeps (line 53 of the source). -/
def colunas_desejadas : List String := ["nome", "turma", "RM", "numero"]

/-- All fields a student source must provide: the four kept columns plus
the exemption flag consulted by the filter. -/
def colunas_obrigatorias : List String := ["nome", "turma", "RM", "numero", "Flex"]

/-- Pool construction `filtrar_e_preparar_alunos` (lines 38-56): the access
`df["Flex"]` raises `KeyError` when that column is missing from the schema;
rows whose Flex value equals the number 1 are dropped (any other value,
including strings and missing values, is kept); the random `sample(frac=1)`
permutation is passed in as the explicit argument `shuffle`; the projection
`df_filtrado[colunas_desejadas]` raises `KeyError` when any of the four
columns is missing; the result is the list of projected records. -/
def filtrar_e_preparar_alunos
    (shuffle : List (String → Value) → List (String → Value))
    (df : DataFrame) : Except PyError (List Student) :=
  if df.cols.contains "Flex" then
    let df_filtrado := df.rows.filter (fun r => !(r "Flex" == Value.num 1))
    let embaralhado := shuffle df_filtrado
    if colunas_desejadas.all (fun c => df.cols.contains c) then
      .ok (embaralhado.map (fun r => ⟨r "nome", r "turma", r "RM", r "numero"⟩))
    else .error .keyError
  else .error .keyError

/-- The application flow around the engine (lines 235-236 and line 271):
both pools are built before the engine runs; a `KeyError` during pool
construction propagates, the engine is never invoked, and no partial pool
escapes. -/
def pipeline (sh1 sh2 : List (String → Value) → List (String → Value))
    (df1 df2 : DataFrame) (wb : String → Aba) (abas_salas : List String)
    (ret : String → Option (List (Nat × Nat))) :
    Except PyError (List (String × Grid) × Nat × Nat) :=
  match filtrar_e_preparar_alunos sh1 df1 with
  | .error e => .error e
  | .ok a1 =>
    match filtrar_e_preparar_alunos sh2 df2 with
    | .error e => .error e
    | .ok a2 => gerar_mapas_todas_salas a1 a2 wb abas_salas ret

/-- Student source with the Flex column missing from its schema. -/
def exDfSemFlex : DataFrame := ⟨["nome", "turma", "RM", "numero"], []⟩

/-- One row of the global allocation list built by
`gerar_lista_por_turma_global` (lines 184-198): the four student fields,
the room name, 1-based row and column numbers, and the formatted exam
date. -/
structure Registro where
  turma : Value
  nome : Value
  RM : Value
  numero : Value
  sala : String
  linha : Nat
  coluna : Nat
  data_avaliacao : String
deriving DecidableEq, Repr

/-- The report flattener `gerar_lista_por_turma_global` (lines 173-199):
rooms in the dict's insertion order, `enumerate` over the rows, then over
the row's cells, emitting one record per non-`None` cell with `lin + 1` and
`col + 1`.  The date argument stands for the already formatted
`data_avaliacao.strftime(...)` string. -/
def gerar_lista_por_turma_global (mapas : List (String × Grid))
    (data_avaliacao : String) : List Registro :=
  mapas.flatMap (fun ps =>
    ps.2.enum.flatMap (fun pl =>
      pl.2.enum.filterMap (fun pc =>
        pc.2.map (fun assento =>
          ⟨assento.turma, assento.nome, assento.RM, assento.numero,
            ps.1, pl.1 + 1, pc.1 + 1, data_avaliacao⟩))))

/-- Modelled from the spec's wording of the flatten contract (minus its
"same traversal as allocation" parenthetical): for every room in input
iteration order, for every row index ascending, for every column index
ascending, for every non-empty cell, one record with 1-based row and column
numbers. -/
def flattenSpec (mapas : List (String × Grid)) (d : String) : List Registro :=
  mapas.flatMap (fun ps =>
    (List.range ps.2.length).flatMap (fun lin =>
      (List.range (ps.2.getD lin []).length).filterMap (fun col =>
        (getCell ps.2 lin col).map (fun a =>
          ⟨a.turma, a.nome, a.RM, a.numero, ps.1, lin + 1, col + 1, d⟩))))

def stD : Student := ⟨Value.str "D", Value.str "t2", Value.str "r4", Value.num 4⟩

/-- A fully occupied 2-by-2 room. -/
def exGridCheio : Grid := [[some stA, some stC], [some stB, some stD]]

def exMapasCheio : List (String × Grid) := [("S", exGridCheio)]

/-- The 1-based (row, column) positions in the order the allocation of
lines 88-93 visits the seats of an `nLin` by `nCol` room: column-major,
rows ascending inside each column. -/
def ordemAlocacao (nLin nCol : Nat) : List (Nat × Nat) :=
  (parsSala nLin nCol).map (fun p => (p.2 + 1, p.1 + 1))

theorem getCell_nil (lin col : Nat) : getCell [] lin col = none := by
  simp [getCell]

theorem getCell_cons_zero (row : List (Option Student)) (rest : Grid) (col : Nat) :
    getCell (row :: rest) 0 col = row.getD col none := by
  simp [getCell]

theorem getCell_cons_succ (row : List (Option Student)) (rest : Grid) (lin col : Nat) :
    getCell (row :: rest) (lin + 1) col = getCell rest lin col := by
  simp [getCell]

theorem setCell_nil (lin col : Nat) (v : Option Student) :
    setCell [] lin col v = [] := by
  simp [setCell]

theorem setCell_cons_zero (row : List (Option Student)) (rest : Grid) (col : Nat)
    (v : Option Student) :
    setCell (row :: rest) 0 col v = row.set col v :: rest := by
  simp [setCell]

theorem setCell_cons_succ (row : List (Option Student)) (rest : Grid) (lin col : Nat)
    (v : Option Student) :
    setCell (row :: rest) (lin + 1) col v = row :: setCell rest lin col v := by
  simp [setCell]

/-- A cell of the empty grid is empty. -/
theorem getCell_emptyGrid (nLin nCol lin col : Nat) :
    getCell (emptyGrid nLin nCol) lin col = none := by
  induction nLin generalizing lin with
  | zero => simp [emptyGrid, getCell]
  | succ n ih =>
      cases lin with
      | zero =>
          simp only [emptyGrid, List.replicate, getCell_cons_zero,
            List.getD_eq_getElem?_getD, List.getElem?_replicate]
          split <;> rfl
      | succ l =>
          simpa [emptyGrid, List.replicate, getCell_cons_succ] using ih l

/-- Reading back a written cell, when the write is in range. -/
theorem getCell_setCell_self (mapa : Grid) (lin col : Nat) (v : Option Student)
    (h1 : lin < mapa.length) (h2 : col < (mapa.getD lin []).length) :
    getCell (setCell mapa lin col v) lin col = v := by
  induction mapa generalizing lin with
  | nil => simp at h1
  | cons row rest ih =>
      cases lin with
      | zero =>
          simp only [List.getD_cons_zero] at h2
          simp [setCell_cons_zero, getCell_cons_zero,
            List.getD_eq_getElem?_getD, List.getElem?_set_self (by simpa using h2)]
      | succ l =>
          simp only [List.length_cons, Nat.succ_lt_succ_iff] at h1
          simp only [List.getD_cons_succ] at h2
          simpa [setCell_cons_succ, getCell_cons_succ] using ih l h1 h2

/-- A write at one position leaves every other position unchanged. -/
theorem getCell_setCell_ne (mapa : Grid) (lin col lin' col' : Nat) (v : Option Student)
    (h : ¬(lin' = lin ∧ col' = col)) :
    getCell (setCell mapa lin col v) lin' col' = getCell mapa lin' col' := by
  induction mapa generalizing lin lin' with
  | nil => simp [setCell_nil]
  | cons row rest ih =>
      cases lin with
      | zero =>
          cases lin' with
          | zero =>
              have hc : col' ≠ col := by
                intro hcc; exact h ⟨rfl, hcc⟩
              simp [setCell_cons_zero, getCell_cons_zero,
                List.getD_eq_getElem?_getD, List.getElem?_set_ne (Ne.symm hc)]
          | succ l' => simp [setCell_cons_zero, getCell_cons_succ]
      | succ l =>
          cases lin' with
          | zero => simp [setCell_cons_succ, getCell_cons_zero]
          | succ l' =>
              have h' : ¬(l' = l ∧ col' = col) := by
                intro ⟨h1, h2⟩; exact h ⟨by simp [h1], h2⟩
              simp [setCell_cons_succ, getCell_cons_succ, ih l l' h']

theorem Rect_emptyGrid (nLin nCol : Nat) : Rect nLin nCol (emptyGrid nLin nCol) := by
  constructor
  · simp [emptyGrid]
  · intro row hrow
    have := List.eq_of_mem_replicate hrow
    simp [this]

theorem Rect_row_length {nLin nCol : Nat} {mapa : Grid} {lin : Nat}
    (h : Rect nLin nCol mapa) (hlin : lin < nLin) :
    (mapa.getD lin []).length = nCol := by
  obtain ⟨hlen, hrows⟩ := h
  have hl : lin < mapa.length := by omega
  rw [List.getD_eq_getElem?_getD, List.getElem?_eq_getElem hl]
  exact hrows _ (List.getElem_mem hl)

theorem Rect_setCell {nLin nCol : Nat} {mapa : Grid} (h : Rect nLin nCol mapa)
    (lin col : Nat) (v : Option Student) :
    Rect nLin nCol (setCell mapa lin col v) := by
  obtain ⟨hlen, hrows⟩ := h
  rcases Nat.lt_or_ge lin mapa.length with hl | hl
  · constructor
    · simp [setCell, hlen]
    · intro row hrow
      rcases List.mem_or_eq_of_mem_set hrow with hmem | heq
      · exact hrows _ hmem
      · subst heq
        rw [List.length_set, List.getD_eq_getElem?_getD, List.getElem?_eq_getElem hl]
        exact hrows _ (List.getElem_mem hl)
  · rw [setCell, List.set_eq_of_length_le hl]
    exact ⟨hlen, hrows⟩

theorem contaLinha_set_some (row : List (Option Student)) (col : Nat) (a : Student)
    (hc : col < row.length) (hnone : row.getD col none = none) :
    contaLinha (row.set col (some a)) = contaLinha row + 1 := by
  induction row generalizing col with
  | nil => simp at hc
  | cons x xs ih =>
      cases col with
      | zero =>
          simp only [List.getD_cons_zero] at hnone
          subst hnone
          simp [contaLinha, List.countP_cons]
      | succ c =>
          simp only [List.length_cons, Nat.succ_lt_succ_iff] at hc
          simp only [List.getD_cons_succ] at hnone
          simp only [List.set_cons_succ, contaLinha, List.countP_cons]
          have := ih c hc hnone
          simp only [contaLinha] at this
          omega

theorem countOccupied_setCell (mapa : Grid) (lin col : Nat) (a : Student)
    (h1 : lin < mapa.length) (h2 : col < (mapa.getD lin []).length)
    (hnone : getCell mapa lin col = none) :
    countOccupied (setCell mapa lin col (some a)) = countOccupied mapa + 1 := by
  induction mapa generalizing lin with
  | nil => simp at h1
  | cons row rest ih =>
      cases lin with
      | zero =>
          simp only [List.getD_cons_zero] at h2
          simp only [getCell_cons_zero] at hnone
          simp only [setCell_cons_zero, countOccupied, List.map_cons, List.sum_cons,
            contaLinha_set_some row col a h2 hnone]
          omega
      | succ l =>
          simp only [List.length_cons, Nat.succ_lt_succ_iff] at h1
          simp only [List.getD_cons_succ] at h2
          simp only [getCell_cons_succ] at hnone
          simp only [setCell_cons_succ, countOccupied, List.map_cons, List.sum_cons]
          have := ih l h1 h2 hnone
          simp only [countOccupied] at this
          omega

theorem snapshot_eq (aluno : Student) : snapshot aluno = aluno := rfl

theorem foldl_flatMap {α β γ : Type} (f : γ → β → γ) (g : α → List β) :
    ∀ (l : List α) (init : γ),
      (l.flatMap g).foldl f init = l.foldl (fun acc a => (g a).foldl f acc) init := by
  intro l
  induction l with
  | nil => intro init; rfl
  | cons a as ih => intro init; simp [List.flatMap_cons, List.foldl_append, ih]

theorem alocarUmaSala_eq_foldl (retiradas : List (Nat × Nat)) (nLin nCol : Nat)
    (g1 g2 : List Student) :
    alocarUmaSala retiradas nLin nCol g1 g2 =
      (parsSala nLin nCol).foldl (passoAssento retiradas) ⟨emptyGrid nLin nCol, g1, g2⟩ := by
  rw [alocarUmaSala, parsSala, foldl_flatMap]
  simp only [List.foldl_map]

theorem parsSala_eq_product (nLin nCol : Nat) :
    parsSala nLin nCol = (List.range nCol) ×ˢ (List.range nLin) := by
  simp [parsSala, SProd.sprod, List.product]

theorem parsSala_nodup (nLin nCol : Nat) : (parsSala nLin nCol).Nodup := by
  rw [parsSala_eq_product]
  exact List.Nodup.product (List.nodup_range _) (List.nodup_range _)

theorem parsSala_mem {nLin nCol : Nat} {p : Nat × Nat} (h : p ∈ parsSala nLin nCol) :
    p.1 < nCol ∧ p.2 < nLin := by
  rw [parsSala_eq_product] at h
  rcases p with ⟨c, l⟩
  simpa using List.mem_product.mp h

theorem passoAssento_bloqueado {retiradas : List (Nat × Nat)} {st : AllocState}
    {p : Nat × Nat} (h : retiradas.contains (p.2, p.1) = true) :
    passoAssento retiradas st p = st := by
  have h' : (p.2, p.1) ∈ retiradas := by simpa using h
  simp [passoAssento, h']

theorem passoAssento_vazio_par {retiradas : List (Nat × Nat)} {st : AllocState}
    {p : Nat × Nat} (hb : retiradas.contains (p.2, p.1) = false)
    (hpar : (p.1 % 2 == 0) = true) (hg : st.g1 = []) :
    passoAssento retiradas st p = st := by
  have hb' : (p.2, p.1) ∉ retiradas := by simpa using hb
  have hpar' : p.1 % 2 = 0 := by simpa using hpar
  simp [passoAssento, hb', hpar', hg]

theorem passoAssento_vazio_impar {retiradas : List (Nat × Nat)} {st : AllocState}
    {p : Nat × Nat} (hb : retiradas.contains (p.2, p.1) = false)
    (hpar : (p.1 % 2 == 0) = false) (hg : st.g2 = []) :
    passoAssento retiradas st p = st := by
  have hb' : (p.2, p.1) ∉ retiradas := by simpa using hb
  have hpar' : ¬p.1 % 2 = 0 := by simpa using hpar
  simp [passoAssento, hb', hpar', hg]

theorem passoAssento_escreve_par {retiradas : List (Nat × Nat)} {st : AllocState}
    {p : Nat × Nat} {aluno : Student} {resto : List Student}
    (hb : retiradas.contains (p.2, p.1) = false)
    (hpar : (p.1 % 2 == 0) = true) (hg : st.g1 = aluno :: resto) :
    passoAssento retiradas st p =
      ⟨setCell st.mapa p.2 p.1 (some (snapshot aluno)), resto, st.g2⟩ := by
  have hb' : (p.2, p.1) ∉ retiradas := by simpa using hb
  have hpar' : p.1 % 2 = 0 := by simpa using hpar
  simp [passoAssento, hb', hpar', hg]

theorem passoAssento_escreve_impar {retiradas : List (Nat × Nat)} {st : AllocState}
    {p : Nat × Nat} {aluno : Student} {resto : List Student}
    (hb : retiradas.contains (p.2, p.1) = false)
    (hpar : (p.1 % 2 == 0) = false) (hg : st.g2 = aluno :: resto) :
    passoAssento retiradas st p =
      ⟨setCell st.mapa p.2 p.1 (some (snapshot aluno)), st.g1, resto⟩ := by
  have hb' : (p.2, p.1) ∉ retiradas := by simpa using hb
  have hpar' : ¬p.1 % 2 = 0 := by simpa using hpar
  simp [passoAssento, hb', hpar', hg]

theorem passoAssento_inv (retiradas : List (Nat × Nat)) (nLin nCol : Nat)
    (a1 a2 : List Student) (st : AllocState) (p : Nat × Nat)
    (hrect : Rect nLin nCol st.mapa)
    (hb1 : p.1 < nCol) (hb2 : p.2 < nLin)
    (hpn : getCell st.mapa p.2 p.1 = none)
    (hs1 : st.g1.Sublist a1) (hs2 : st.g2.Sublist a2)
    (hpar : ParidadeProp a1 a2 st.mapa) :
    medida (passoAssento retiradas st p) = medida st ∧
    Rect nLin nCol (passoAssento retiradas st p).mapa ∧
    (passoAssento retiradas st p).g1.Sublist a1 ∧
    (passoAssento retiradas st p).g2.Sublist a2 ∧
    (∀ lin col, ¬(lin = p.2 ∧ col = p.1) →
      getCell (passoAssento retiradas st p).mapa lin col = getCell st.mapa lin col) ∧
    ParidadeProp a1 a2 (passoAssento retiradas st p).mapa ∧
    (∀ lin col, retiradas.contains (lin, col) = true →
      getCell (passoAssento retiradas st p).mapa lin col = getCell st.mapa lin col) := by
  have hl : p.2 < st.mapa.length := by rw [hrect.1]; exact hb2
  have hc : p.1 < (st.mapa.getD p.2 []).length := by
    rw [Rect_row_length hrect hb2]; exact hb1
  cases hb : retiradas.contains (p.2, p.1) with
  | true =>
      rw [passoAssento_bloqueado hb]
      exact ⟨rfl, hrect, hs1, hs2, fun _ _ _ => rfl, hpar, fun _ _ _ => rfl⟩
  | false =>
      cases hp2 : (p.1 % 2 == 0) with
      | true =>
          cases hg : st.g1 with
          | nil =>
              rw [passoAssento_vazio_par hb hp2 hg]
              exact ⟨rfl, hrect, hs1, hs2, fun _ _ _ => rfl, hpar, fun _ _ _ => rfl⟩
          | cons aluno resto =>
              rw [passoAssento_escreve_par hb hp2 hg]
              have hfr : ∀ lin col, ¬(lin = p.2 ∧ col = p.1) →
                  getCell (setCell st.mapa p.2 p.1 (some (snapshot aluno))) lin col =
                    getCell st.mapa lin col := by
                intro lin col hne
                exact getCell_setCell_ne st.mapa p.2 p.1 lin col _ hne
              refine ⟨?_, Rect_setCell hrect _ _ _, ?_, hs2, hfr, ?_, ?_⟩
              · have hcount := countOccupied_setCell st.mapa p.2 p.1 (snapshot aluno) hl hc hpn
                have hlen : st.g1.length = resto.length + 1 := by rw [hg]; rfl
                simp only [medida, hcount]
                omega
              · exact (List.sublist_cons_self aluno resto).trans (hg ▸ hs1)
              · intro lin col s hcell
                by_cases hsame : lin = p.2 ∧ col = p.1
                · obtain ⟨h1, h2⟩ := hsame
                  subst h1; subst h2
                  rw [getCell_setCell_self st.mapa p.2 p.1 _ hl hc] at hcell
                  have hs : s = aluno := by
                    simpa [snapshot_eq] using hcell.symm
                  subst hs
                  have hmem : s ∈ a1 := hs1.subset (hg ▸ List.mem_cons_self s resto)
                  have hpar0 : p.1 % 2 = 0 := by simpa using hp2
                  exact ⟨fun _ => hmem, fun h1 => by omega⟩
                · rw [hfr lin col hsame] at hcell
                  exact hpar lin col s hcell
              · intro lin col hcont
                have hne : ¬(lin = p.2 ∧ col = p.1) := by
                  rintro ⟨h1, h2⟩
                  subst h1; subst h2
                  rw [hcont] at hb
                  exact Bool.true_eq_false.mp hb
                exact hfr lin col hne
      | false =>
          cases hg : st.g2 with
          | nil =>
              rw [passoAssento_vazio_impar hb hp2 hg]
              exact ⟨rfl, hrect, hs1, hs2, fun _ _ _ => rfl, hpar, fun _ _ _ => rfl⟩
          | cons aluno resto =>
              rw [passoAssento_escreve_impar hb hp2 hg]
              have hfr : ∀ lin col, ¬(lin = p.2 ∧ col = p.1) →
                  getCell (setCell st.mapa p.2 p.1 (some (snapshot aluno))) lin col =
                    getCell st.mapa lin col := by
                intro lin col hne
                exact getCell_setCell_ne st.mapa p.2 p.1 lin col _ hne
              refine ⟨?_, Rect_setCell hrect _ _ _, hs1, ?_, hfr, ?_, ?_⟩
              · have hcount := countOccupied_setCell st.mapa p.2 p.1 (snapshot aluno) hl hc hpn
                have hlen : st.g2.length = resto.length + 1 := by rw [hg]; rfl
                simp only [medida, hcount]
                omega
              · exact (List.sublist_cons_self aluno resto).trans (hg ▸ hs2)
              · intro lin col s hcell
                by_cases hsame : lin = p.2 ∧ col = p.1
                · obtain ⟨h1, h2⟩ := hsame
                  subst h1; subst h2
                  rw [getCell_setCell_self st.mapa p.2 p.1 _ hl hc] at hcell
                  have hs : s = aluno := by
                    simpa [snapshot_eq] using hcell.symm
                  subst hs
                  have hmem : s ∈ a2 := hs2.subset (hg ▸ List.mem_cons_self s resto)
                  have hpar1 : p.1 % 2 = 1 := by
                    have : ¬p.1 % 2 = 0 := by simpa using hp2
                    omega
                  exact ⟨fun h0 => by omega, fun _ => hmem⟩
                · rw [hfr lin col hsame] at hcell
                  exact hpar lin col s hcell
              · intro lin col hcont
                have hne : ¬(lin = p.2 ∧ col = p.1) := by
                  rintro ⟨h1, h2⟩
                  subst h1; subst h2
                  rw [hcont] at hb
                  exact Bool.true_eq_false.mp hb
                exact hfr lin col hne

theorem foldl_passo_inv (retiradas : List (Nat × Nat)) (nLin nCol : Nat)
    (a1 a2 : List Student) :
    ∀ (ps : List (Nat × Nat)) (st : AllocState),
      Rect nLin nCol st.mapa →
      (∀ p ∈ ps, p.1 < nCol ∧ p.2 < nLin) →
      (∀ p ∈ ps, getCell st.mapa p.2 p.1 = none) →
      ps.Nodup →
      st.g1.Sublist a1 → st.g2.Sublist a2 →
      ParidadeProp a1 a2 st.mapa →
      medida (ps.foldl (passoAssento retiradas) st) = medida st ∧
      Rect nLin nCol (ps.foldl (passoAssento retiradas) st).mapa ∧
      (ps.foldl (passoAssento retiradas) st).g1.Sublist a1 ∧
      (ps.foldl (passoAssento retiradas) st).g2.Sublist a2 ∧
      (∀ lin col, retiradas.contains (lin, col) = true →
        getCell (ps.foldl (passoAssento retiradas) st).mapa lin col =
          getCell st.mapa lin col) ∧
      ParidadeProp a1 a2 (ps.foldl (passoAssento retiradas) st).mapa := by
  intro ps
  induction ps with
  | nil =>
      intro st hrect _ _ _ hs1 hs2 hpar
      exact ⟨rfl, hrect, hs1, hs2, fun _ _ _ => rfl, hpar⟩
  | cons p ps ih =>
      intro st hrect hbounds hnone hnd hs1 hs2 hpar
      rw [List.foldl_cons]
      obtain ⟨hb1, hb2⟩ := hbounds p (List.mem_cons_self p ps)
      have hpn := hnone p (List.mem_cons_self p ps)
      have hnotmem : p ∉ ps := (List.nodup_cons.mp hnd).1
      have hnd' : ps.Nodup := (List.nodup_cons.mp hnd).2
      obtain ⟨hM, hR, hsub1, hsub2, hfr, hP, hbl⟩ :=
        passoAssento_inv retiradas nLin nCol a1 a2 st p hrect hb1 hb2 hpn hs1 hs2 hpar
      have hnone' : ∀ q ∈ ps, getCell (passoAssento retiradas st p).mapa q.2 q.1 = none := by
        intro q hq
        have hne : ¬(q.2 = p.2 ∧ q.1 = p.1) := by
          rintro ⟨h1, h2⟩
          exact hnotmem (by
            have : q = p := Prod.ext h2 h1
            rw [← this]; exact hq)
        rw [hfr q.2 q.1 hne]
        exact hnone q (List.mem_cons_of_mem p hq)
      obtain ⟨iM, iR, is1, is2, ibl, iP⟩ :=
        ih (passoAssento retiradas st p) hR
          (fun q hq => hbounds q (List.mem_cons_of_mem p hq)) hnone' hnd' hsub1 hsub2 hP
      refine ⟨iM.trans hM, iR, is1, is2, ?_, iP⟩
      intro lin col hcont
      rw [ibl lin col hcont, hbl lin col hcont]

theorem contaLinha_replicate_none (nCol : Nat) :
    contaLinha (List.replicate nCol none) = 0 := by
  induction nCol with
  | zero => rfl
  | succ n ih => simp [contaLinha, List.replicate, List.countP_cons]

theorem countOccupied_emptyGrid (nLin nCol : Nat) :
    countOccupied (emptyGrid nLin nCol) = 0 := by
  induction nLin with
  | zero => rfl
  | succ n ih =>
      simp [countOccupied, emptyGrid, List.replicate, contaLinha_replicate_none]

/-- Combined invariants of one room's allocation: seats filled plus students
left equals students supplied; the leftover pools are sublists of the
initial pools; blocked seats are empty; the column-parity property holds. -/
theorem alocarUmaSala_inv (retiradas : List (Nat × Nat)) (nLin nCol : Nat)
    (g1 g2 a1 a2 : List Student) (hs1 : g1.Sublist a1) (hs2 : g2.Sublist a2) :
    countOccupied (alocarUmaSala retiradas nLin nCol g1 g2).mapa +
        (alocarUmaSala retiradas nLin nCol g1 g2).g1.length +
        (alocarUmaSala retiradas nLin nCol g1 g2).g2.length =
      g1.length + g2.length ∧
    (alocarUmaSala retiradas nLin nCol g1 g2).g1.Sublist a1 ∧
    (alocarUmaSala retiradas nLin nCol g1 g2).g2.Sublist a2 ∧
    (∀ lin col, retiradas.contains (lin, col) = true →
      getCell (alocarUmaSala retiradas nLin nCol g1 g2).mapa lin col = none) ∧
    ParidadeProp a1 a2 (alocarUmaSala retiradas nLin nCol g1 g2).mapa := by
  rw [alocarUmaSala_eq_foldl]
  obtain ⟨hM, _, hsub1, hsub2, hbl, hP⟩ :=
    foldl_passo_inv retiradas nLin nCol a1 a2 (parsSala nLin nCol)
      ⟨emptyGrid nLin nCol, g1, g2⟩ (Rect_emptyGrid nLin nCol)
      (fun _ hp => parsSala_mem hp)
      (fun p _ => getCell_emptyGrid nLin nCol p.2 p.1)
      (parsSala_nodup nLin nCol) hs1 hs2
      (fun lin col s hcell => absurd hcell (by simp [getCell_emptyGrid]))
  refine ⟨?_, hsub1, hsub2, ?_, hP⟩
  · simpa [medida, countOccupied_emptyGrid] using hM
  · intro lin col hcont
    rw [hbl lin col hcont]
    exact getCell_emptyGrid nLin nCol lin col

theorem dictSet_fresh (m : List (String × Grid)) (k : String) (v : Grid)
    (h : ∀ q ∈ m, q.1 ≠ k) : dictSet m k v = m ++ [(k, v)] := by
  have hany : m.any (fun q => q.1 == k) = false := by
    rw [List.any_eq_false]
    intro q hq
    simpa using h q hq
  simp [dictSet, hany]

theorem mem_dictSet {m : List (String × Grid)} {k : String} {v : Grid}
    {q : String × Grid} (h : q ∈ dictSet m k v) : q ∈ m ∨ q = (k, v) := by
  rw [dictSet] at h
  split at h
  · rcases List.mem_map.mp h with ⟨q', hq', heq⟩
    by_cases hk : q'.1 = k
    · right; rw [← heq]; simp [hk]
    · left; rw [← heq]; simpa [hk] using hq'
  · rcases List.mem_append.mp h with h1 | h1
    · left; exact h1
    · right; simpa using h1

theorem occTotal_append_single (m : List (String × Grid)) (k : String) (v : Grid) :
    occTotal (m ++ [(k, v)]) = occTotal m + countOccupied v := by
  simp [occTotal]

/-- Conservation along the room loop, for duplicate-free sheet-name lists
whose names are fresh for the accumulator. -/
theorem loopSalas_conserva (wb : String → Aba)
    (ret : String → Option (List (Nat × Nat))) :
    ∀ (abas : List String) (acc : List (String × Grid)) (g1 g2 : List Student)
      (mapas : List (String × Grid)) (r1 r2 : List Student),
      abas.Nodup →
      (∀ s ∈ abas, ∀ q ∈ acc, q.1 ≠ s) →
      loopSalas wb ret abas acc g1 g2 = .ok (mapas, r1, r2) →
      occTotal mapas + r1.length + r2.length =
        occTotal acc + g1.length + g2.length := by
  intro abas
  induction abas with
  | nil =>
      intro acc g1 g2 mapas r1 r2 _ _ h
      rw [loopSalas] at h
      cases h
      rfl
  | cons sala resto ih =>
      intro acc g1 g2 mapas r1 r2 hnd hfresh h
      rw [loopSalas] at h
      cases ha : pyInt (wb sala).a2 with
      | error e => rw [ha] at h; cases h
      | ok nLin =>
        rw [ha] at h
        cases hb : pyInt (wb sala).b2 with
        | error e => rw [hb] at h; cases h
        | ok nCol =>
          rw [hb] at h
          simp only at h
          have hfr : ∀ q ∈ acc, q.1 ≠ sala :=
            hfresh sala (List.mem_cons_self sala resto)
          rw [dictSet_fresh acc sala _ hfr] at h
          have hnotm : sala ∉ resto := (List.nodup_cons.mp hnd).1
          have hfresh' : ∀ s ∈ resto,
              ∀ q ∈ acc ++ [(sala,
                (alocarUmaSala ((ret sala).getD []) nLin.toNat nCol.toNat g1 g2).mapa)],
              q.1 ≠ s := by
            intro s hs q hq
            rcases List.mem_append.mp hq with h1 | h1
            · exact hfresh s (List.mem_cons_of_mem sala hs) q h1
            · have : q.1 = sala := by
                simp only [List.mem_singleton] at h1
                rw [h1]
              rw [this]
              intro hcontr
              exact hnotm (hcontr ▸ hs)
          have hrec := ih _ _ _ _ _ _ (List.nodup_cons.mp hnd).2 hfresh' h
          have hroom := alocarUmaSala_inv ((ret sala).getD []) nLin.toNat nCol.toNat
            g1 g2 g1 g2 (List.Sublist.refl g1) (List.Sublist.refl g2)
          rw [occTotal_append_single] at hrec
          have := hroom.1
          omega

/-- Along the room loop, every produced grid keeps its room's blocked seats
empty. -/
theorem loopSalas_bloqueados (wb : String → Aba)
    (ret : String → Option (List (Nat × Nat))) :
    ∀ (abas : List String) (acc : List (String × Grid)) (g1 g2 : List Student)
      (mapas : List (String × Grid)) (r1 r2 : List Student),
      (∀ q ∈ acc, ∀ lin col, ((ret q.1).getD []).contains (lin, col) = true →
        getCell q.2 lin col = none) →
      loopSalas wb ret abas acc g1 g2 = .ok (mapas, r1, r2) →
      ∀ q ∈ mapas, ∀ lin col, ((ret q.1).getD []).contains (lin, col) = true →
        getCell q.2 lin col = none := by
  intro abas
  induction abas with
  | nil =>
      intro acc g1 g2 mapas r1 r2 hacc h
      rw [loopSalas] at h
      cases h
      exact hacc
  | cons sala resto ih =>
      intro acc g1 g2 mapas r1 r2 hacc h
      rw [loopSalas] at h
      cases ha : pyInt (wb sala).a2 with
      | error e => rw [ha] at h; cases h
      | ok nLin =>
        rw [ha] at h
        cases hb : pyInt (wb sala).b2 with
        | error e => rw [hb] at h; cases h
        | ok nCol =>
          rw [hb] at h
          simp only at h
          refine ih _ _ _ _ _ _ ?_ h
          intro q hq lin col hcont
          rcases mem_dictSet hq with hmem | heq
          · exact hacc q hmem lin col hcont
          · have hroom := alocarUmaSala_inv ((ret sala).getD []) nLin.toNat nCol.toNat
              g1 g2 g1 g2 (List.Sublist.refl g1) (List.Sublist.refl g2)
            rw [heq] at hcont ⊢
            exact hroom.2.2.2.1 lin col hcont

/-- Along the room loop, every produced grid satisfies the column-parity
property with respect to the initial pools, and the running pools stay
sublists of the initial pools. -/
theorem loopSalas_paridade (wb : String → Aba)
    (ret : String → Option (List (Nat × Nat))) (a1 a2 : List Student) :
    ∀ (abas : List String) (acc : List (String × Grid)) (g1 g2 : List Student)
      (mapas : List (String × Grid)) (r1 r2 : List Student),
      g1.Sublist a1 → g2.Sublist a2 →
      (∀ q ∈ acc, ParidadeProp a1 a2 q.2) →
      loopSalas wb ret abas acc g1 g2 = .ok (mapas, r1, r2) →
      ∀ q ∈ mapas, ParidadeProp a1 a2 q.2 := by
  intro abas
  induction abas with
  | nil =>
      intro acc g1 g2 mapas r1 r2 _ _ hacc h
      rw [loopSalas] at h
      cases h
      exact hacc
  | cons sala resto ih =>
      intro acc g1 g2 mapas r1 r2 hs1 hs2 hacc h
      rw [loopSalas] at h
      cases ha : pyInt (wb sala).a2 with
      | error e => rw [ha] at h; cases h
      | ok nLin =>
        rw [ha] at h
        cases hb : pyInt (wb sala).b2 with
        | error e => rw [hb] at h; cases h
        | ok nCol =>
          rw [hb] at h
          simp only at h
          have hroom := alocarUmaSala_inv ((ret sala).getD []) nLin.toNat nCol.toNat
            g1 g2 a1 a2 hs1 hs2
          refine ih _ _ _ _ _ _ hroom.2.1 hroom.2.2.1 ?_ h
          intro q hq
          rcases mem_dictSet hq with hmem | heq
          · exact hacc q hmem
          · rw [heq]
            exact hroom.2.2.2.2

/-- C1 — Conservation: for every pair of input pools and every room sequence
(sheet names are distinct in a workbook, hence the `Nodup` hypothesis) with
blocked-seat sets, if `gerar_mapas_todas_salas` completes, the occupied
cells summed over all rooms' grids plus the two leftover counts equal the
two initial pool sizes. -/
theorem conservacao (alunos1 alunos2 : List Student) (wb : String → Aba)
    (abas_salas : List String) (ret : String → Option (List (Nat × Nat)))
    (mapas : List (String × Grid)) (l1 l2 : Nat)
    (hnd : abas_salas.Nodup)
    (h : gerar_mapas_todas_salas alunos1 alunos2 wb abas_salas ret =
      .ok (mapas, l1, l2)) :
    occTotal mapas + l1 + l2 = alunos1.length + alunos2.length := by
  rw [gerar_mapas_todas_salas] at h
  cases hl : loopSalas wb ret abas_salas [] alunos1 alunos2 with
  | error e => rw [hl] at h; cases h
  | ok res =>
      obtain ⟨m, r1, r2⟩ := res
      rw [hl] at h
      simp only [Except.ok.injEq, Prod.mk.injEq] at h
      obtain ⟨h1, h2, h3⟩ := h
      subst h1; subst h2; subst h3
      have hcons := loopSalas_conserva wb ret abas_salas [] alunos1 alunos2 _ _ _
        hnd (fun s _ q hq => absurd hq (List.not_mem_nil q)) hl
      simpa [occTotal] using hcons

/-- Witness for C1 at the concrete example. -/
theorem conservacao_witness :
    occTotal exMapas + 0 + 0 = exAlunos1.length + exAlunos2.length :=
  conservacao exAlunos1 exAlunos2 exWb ["S"] exRet exMapas 0 0 (by simp) rfl

/-- C2 — Blocked-seat invariant: after a completed run, every position in a
room's blocked-seat set is empty in that room's grid, and a visit to a
blocked seat leaves both pools untouched. -/
theorem bloqueio_respeitado (alunos1 alunos2 : List Student) (wb : String → Aba)
    (abas_salas : List String) (ret : String → Option (List (Nat × Nat)))
    (mapas : List (String × Grid)) (l1 l2 : Nat) (sala : String) (grid : Grid)
    (lin col : Nat) (st : AllocState) (p : Nat × Nat)
    (h : gerar_mapas_todas_salas alunos1 alunos2 wb abas_salas ret =
      .ok (mapas, l1, l2))
    (hm : (sala, grid) ∈ mapas)
    (hbloq : ((ret sala).getD []).contains (lin, col) = true)
    (hpb : ((ret sala).getD []).contains (p.2, p.1) = true) :
    getCell grid lin col = none ∧
    (passoAssento ((ret sala).getD []) st p).g1 = st.g1 ∧
    (passoAssento ((ret sala).getD []) st p).g2 = st.g2 := by
  refine ⟨?_, ?_, ?_⟩
  · rw [gerar_mapas_todas_salas] at h
    cases hl : loopSalas wb ret abas_salas [] alunos1 alunos2 with
    | error e => rw [hl] at h; cases h
    | ok res =>
        obtain ⟨m, r1, r2⟩ := res
        rw [hl] at h
        simp only [Except.ok.injEq, Prod.mk.injEq] at h
        obtain ⟨h1, h2, h3⟩ := h
        subst h1; subst h2; subst h3
        exact loopSalas_bloqueados wb ret abas_salas [] alunos1 alunos2 _ _ _
          (fun q hq => absurd hq (List.not_mem_nil q)) hl (sala, grid) hm lin col hbloq
  · rw [passoAssento_bloqueado hpb]
  · rw [passoAssento_bloqueado hpb]

/-- Witness for C2 at the concrete example: seat (1,1) of room "S" is
blocked and empty, and the visit to it pops neither pool. -/
theorem bloqueio_respeitado_witness :
    getCell exGrid 1 1 = none ∧
    (passoAssento ((exRet "S").getD []) ⟨exGrid, exAlunos1, exAlunos2⟩ (1, 1)).g1 =
      (⟨exGrid, exAlunos1, exAlunos2⟩ : AllocState).g1 ∧
    (passoAssento ((exRet "S").getD []) ⟨exGrid, exAlunos1, exAlunos2⟩ (1, 1)).g2 =
      (⟨exGrid, exAlunos1, exAlunos2⟩ : AllocState).g2 :=
  bloqueio_respeitado exAlunos1 exAlunos2 exWb ["S"] exRet exMapas 0 0 "S" exGrid
    1 1 ⟨exGrid, exAlunos1, exAlunos2⟩ (1, 1) rfl (by simp [exMapas]) rfl rfl

/-- C3 — Column-parity invariant: after a completed run, every occupant of
an even-indexed column of any room's grid came from pool 1 and every
occupant of an odd-indexed column from pool 2. -/
theorem paridade_colunas (alunos1 alunos2 : List Student) (wb : String → Aba)
    (abas_salas : List String) (ret : String → Option (List (Nat × Nat)))
    (mapas : List (String × Grid)) (l1 l2 : Nat) (sala : String) (grid : Grid)
    (lin col : Nat) (s : Student)
    (h : gerar_mapas_todas_salas alunos1 alunos2 wb abas_salas ret =
      .ok (mapas, l1, l2))
    (hm : (sala, grid) ∈ mapas)
    (hcell : getCell grid lin col = some s) :
    (col % 2 = 0 → s ∈ alunos1) ∧ (col % 2 = 1 → s ∈ alunos2) := by
  rw [gerar_mapas_todas_salas] at h
  cases hl : loopSalas wb ret abas_salas [] alunos1 alunos2 with
  | error e => rw [hl] at h; cases h
  | ok res =>
      obtain ⟨m, r1, r2⟩ := res
      rw [hl] at h
      simp only [Except.ok.injEq, Prod.mk.injEq] at h
      obtain ⟨h1, h2, h3⟩ := h
      subst h1; subst h2; subst h3
      exact loopSalas_paridade wb ret alunos1 alunos2 abas_salas [] alunos1 alunos2
        _ _ _ (List.Sublist.refl alunos1) (List.Sublist.refl alunos2)
        (fun q hq => absurd hq (List.not_mem_nil q)) hl (sala, grid) hm lin col s hcell

/-- Witness for C3 at the concrete example: the occupant of cell (0,0) —
an even column — is student A of pool 1. -/
theorem paridade_colunas_witness :
    (0 % 2 = 0 → stA ∈ exAlunos1) ∧ (0 % 2 = 1 → stA ∈ exAlunos2) :=
  paridade_colunas exAlunos1 exAlunos2 exWb ["S"] exRet exMapas 0 0 "S" exGrid
    0 0 stA rfl (by simp [exMapas]) rfl

/-- C4 — Worked example: pools `[A, B]` and `[C]` into one 2-by-2 room with
seat (1,1) blocked give the grid `(0,0)=A, (1,0)=B, (0,1)=C, (1,1)` empty
and leftover counts 0 and 0. -/
theorem exemplo_trabalhado :
    gerar_mapas_todas_salas exAlunos1 exAlunos2 exWb ["S"] exRet =
      .ok (exMapas, 0, 0) := rfl

/-- C9 — Traversal determinism: the engine is a deterministic function of
the pool values — two separately-constructed but element-wise identical
pool snapshots produce identical grids and identical leftover counts. -/
theorem determinismo (a1 a2 b1 b2 : List Student) (wb : String → Aba)
    (abas_salas : List String) (ret : String → Option (List (Nat × Nat)))
    (h1 : a1 = b1) (h2 : a2 = b2) :
    gerar_mapas_todas_salas a1 a2 wb abas_salas ret =
      gerar_mapas_todas_salas b1 b2 wb abas_salas ret := by
  rw [h1, h2]

/-- Witness for C9 at the concrete example. -/
theorem determinismo_witness :
    gerar_mapas_todas_salas exAlunos1 exAlunos2 exWb ["S"] exRet =
      gerar_mapas_todas_salas [stA, stB] [stC] exWb ["S"] exRet :=
  determinismo exAlunos1 exAlunos2 [stA, stB] [stC] exWb ["S"] exRet rfl rfl

/-- The room loop only consults the blocked-seat mapping through
`(ret sala).getD []` (line 83), so two mappings that agree after the
default agree on the whole run. -/
theorem loopSalas_congr_ret (wb : String → Aba)
    (ret ret' : String → Option (List (Nat × Nat)))
    (hcong : ∀ s, (ret s).getD [] = (ret' s).getD []) :
    ∀ (abas : List String) (acc : List (String × Grid)) (g1 g2 : List Student),
      loopSalas wb ret abas acc g1 g2 = loopSalas wb ret' abas acc g1 g2 := by
  intro abas
  induction abas with
  | nil => intro acc g1 g2; rfl
  | cons sala resto ih =>
      intro acc g1 g2
      rw [loopSalas, loopSalas]
      cases ha : pyInt (wb sala).a2 with
      | error e => rfl
      | ok nLin =>
        cases hb : pyInt (wb sala).b2 with
        | error e => rfl
        | ok nCol =>
          simp only
          rw [hcong sala]
          exact ih _ _ _

/-- Success of the room loop depends only on the workbook and the sheet
names: the blocked-seat mapping, the accumulator and the pools never cause
an error. -/
theorem loopSalas_isOk (wb : String → Aba) :
    ∀ (abas : List String) (ret ret' : String → Option (List (Nat × Nat)))
      (acc acc' : List (String × Grid)) (g1 g2 g1' g2' : List Student),
      (loopSalas wb ret abas acc g1 g2).isOk =
        (loopSalas wb ret' abas acc' g1' g2').isOk := by
  intro abas
  induction abas with
  | nil => intro ret ret' acc acc' g1 g2 g1' g2'; rfl
  | cons sala resto ih =>
      intro ret ret' acc acc' g1 g2 g1' g2'
      rw [loopSalas, loopSalas]
      cases ha : pyInt (wb sala).a2 with
      | error e => rfl
      | ok nLin =>
        cases hb : pyInt (wb sala).b2 with
        | error e => rfl
        | ok nCol =>
          simp only
          exact ih _ _ _ _ _ _ _ _

theorem gerar_isOk_eq_loop (alunos1 alunos2 : List Student) (wb : String → Aba)
    (abas_salas : List String) (ret : String → Option (List (Nat × Nat))) :
    (gerar_mapas_todas_salas alunos1 alunos2 wb abas_salas ret).isOk =
      (loopSalas wb ret abas_salas [] alunos1 alunos2).isOk := by
  rw [gerar_mapas_todas_salas]
  cases hl : loopSalas wb ret abas_salas [] alunos1 alunos2 with
  | error e => rfl
  | ok res => obtain ⟨m, r1, r2⟩ := res; rfl

/-- C10 — Missing blocked-seat entry: a room absent from the blocked-seat
mapping is treated exactly as a room with an explicit empty blocked-seat
set, and a missing entry never causes a failure: success of the run is the
same as with the everywhere-missing mapping. -/
theorem retirada_ausente (alunos1 alunos2 : List Student) (wb : String → Aba)
    (abas_salas : List String) (ret : String → Option (List (Nat × Nat)))
    (sala : String) (h : ret sala = none) :
    gerar_mapas_todas_salas alunos1 alunos2 wb abas_salas ret =
      gerar_mapas_todas_salas alunos1 alunos2 wb abas_salas
        (fun s => if s = sala then some [] else ret s) ∧
    (gerar_mapas_todas_salas alunos1 alunos2 wb abas_salas ret).isOk =
      (gerar_mapas_todas_salas alunos1 alunos2 wb abas_salas
        (fun _ => none)).isOk := by
  constructor
  · rw [gerar_mapas_todas_salas, gerar_mapas_todas_salas]
    rw [loopSalas_congr_ret wb ret (fun s => if s = sala then some [] else ret s)]
    intro s
    by_cases hs : s = sala
    · subst hs
      rw [h]
      simp
    · simp [hs]
  · rw [gerar_isOk_eq_loop, gerar_isOk_eq_loop]
    exact loopSalas_isOk wb abas_salas ret (fun _ => none) [] [] alunos1 alunos2
      alunos1 alunos2

/-- Witness for C10: a run whose blocked-seat mapping has no entry at all
for room "S" completes and equals the run with an explicit empty entry. -/
theorem retirada_ausente_witness :
    gerar_mapas_todas_salas exAlunos1 exAlunos2 exWb ["S"] (fun _ => none) =
      gerar_mapas_todas_salas exAlunos1 exAlunos2 exWb ["S"]
        (fun s => if s = "S" then some [] else none) ∧
    (gerar_mapas_todas_salas exAlunos1 exAlunos2 exWb ["S"] (fun _ => none)).isOk =
      (gerar_mapas_todas_salas exAlunos1 exAlunos2 exWb ["S"]
        (fun _ => none)).isOk :=
  retirada_ausente exAlunos1 exAlunos2 exWb ["S"] (fun _ => none) "S" rfl

/-- The room loop fails exactly when some sheet's dimension cell fails the
`int(...)` conversion (missing or non-numeric); the numeric value itself —
in particular a non-positive one — is never rejected. -/
theorem loopSalas_isOk_false_iff (wb : String → Aba)
    (ret : String → Option (List (Nat × Nat))) :
    ∀ (abas : List String) (acc : List (String × Grid)) (g1 g2 : List Student),
      (loopSalas wb ret abas acc g1 g2).isOk = false ↔
        ∃ sala ∈ abas,
          (pyInt (wb sala).a2).isOk = false ∨ (pyInt (wb sala).b2).isOk = false := by
  intro abas
  induction abas with
  | nil =>
      intro acc g1 g2
      simp [loopSalas, Except.isOk, Except.toBool]
  | cons sala resto ih =>
      intro acc g1 g2
      rw [loopSalas]
      cases ha : pyInt (wb sala).a2 with
      | error e =>
          constructor
          · intro _
            exact ⟨sala, List.mem_cons_self sala resto, Or.inl (by rw [ha]; rfl)⟩
          · intro _; rfl
      | ok nLin =>
        cases hb : pyInt (wb sala).b2 with
        | error e =>
            constructor
            · intro _
              exact ⟨sala, List.mem_cons_self sala resto, Or.inr (by rw [hb]; rfl)⟩
            · intro _; rfl
        | ok nCol =>
            simp only
            rw [ih _ _ _]
            constructor
            · rintro ⟨s, hs, hbad⟩
              exact ⟨s, List.mem_cons_of_mem sala hs, hbad⟩
            · rintro ⟨s, hs, hbad⟩
              rcases List.mem_cons.mp hs with rfl | hs'
              · rw [ha, hb] at hbad
                simp [Except.isOk, Except.toBool] at hbad
              · exact ⟨s, hs', hbad⟩

/-- C6 (amended) — Invalid topology: the run fails (with the `TypeError` or
`ValueError` that `int(...)` raises) exactly when some room's row- or
column-count cell is missing or non-numeric.  A non-positive numeric count
is not rejected: the run completes, giving that room a degenerate grid with
no seats. -/
theorem topologia_invalida (alunos1 alunos2 : List Student) (wb : String → Aba)
    (abas_salas : List String) (ret : String → Option (List (Nat × Nat))) :
    (gerar_mapas_todas_salas alunos1 alunos2 wb abas_salas ret).isOk = false ↔
      ∃ sala ∈ abas_salas,
        (pyInt (wb sala).a2).isOk = false ∨ (pyInt (wb sala).b2).isOk = false := by
  rw [gerar_isOk_eq_loop]
  exact loopSalas_isOk_false_iff wb ret abas_salas [] alunos1 alunos2

/-- C6 counterexample — a room with a non-positive row count (0) is NOT
rejected: the run completes successfully and silently produces an empty
grid for that room, with the whole pool left over, contradicting the claim
that such a room fails with an error before allocation. -/
theorem topologia_invalida_counterexample :
    gerar_mapas_todas_salas [stA] [] exWbZero ["S"] (fun _ => none) =
      .ok ([("S", [])], 1, 0) ∧
    (gerar_mapas_todas_salas [stA] [] exWbZero ["S"] (fun _ => none)).isOk = true :=
  ⟨rfl, rfl⟩

/-- C5 (amended) — Re-invocation: the engine does not drain the caller's
pool instances (it copies them), so calling it a second time on the very
same pool instances with the same rooms returns the identical result. -/
theorem reinvocacao (alunos1 alunos2 : List Student) (wb : String → Aba)
    (abas_salas : List String)
    (ret : String → Option (List (Nat × Nat))) :
    (chamada_gerar_mapas alunos1 alunos2 wb abas_salas ret).1 =
      (alunos1, alunos2) ∧
    chamada_gerar_mapas (chamada_gerar_mapas alunos1 alunos2 wb abas_salas ret).1.1
        (chamada_gerar_mapas alunos1 alunos2 wb abas_salas ret).1.2
        wb abas_salas ret =
      chamada_gerar_mapas alunos1 alunos2 wb abas_salas ret :=
  ⟨rfl, rfl⟩

/-- C5 counterexample — on pools that the first run seats completely, a
second invocation on the very same pool instances yields the same fully
seated result again, not a degenerate/empty one: the first call returns
the pools un-drained, and both calls produce the non-empty grid with zero
leftovers. -/
theorem reinvocacao_counterexample :
    (chamada_gerar_mapas exAlunos1 exAlunos2 exWb ["S"] exRet).2 =
      .ok (exMapas, 0, 0) ∧
    (chamada_gerar_mapas
        (chamada_gerar_mapas exAlunos1 exAlunos2 exWb ["S"] exRet).1.1
        (chamada_gerar_mapas exAlunos1 exAlunos2 exWb ["S"] exRet).1.2
        exWb ["S"] exRet).2 =
      .ok (exMapas, 0, 0) ∧
    exMapas ≠ [] :=
  ⟨rfl, rfl, by simp [exMapas]⟩

theorem filtrar_coluna_ausente
    (shuffle : List (String → Value) → List (String → Value))
    (df : DataFrame) (campo : String)
    (h1 : campo ∈ colunas_obrigatorias) (h2 : campo ∉ df.cols) :
    filtrar_e_preparar_alunos shuffle df = .error .keyError := by
  cases hflex : df.cols.contains "Flex" with
  | false =>
      simp [filtrar_e_preparar_alunos, hflex]
      intro hmem
      exact absurd hmem (by simpa using hflex)
  | true =>
      have hfmem : "Flex" ∈ df.cols := by simpa using hflex
      have hfc : campo ≠ "Flex" := by
        intro hc
        exact h2 (hc ▸ hfmem)
      have hdes : campo ∈ colunas_desejadas := by
        simp only [colunas_obrigatorias, List.mem_cons, List.not_mem_nil,
          or_false] at h1
        rcases h1 with h | h | h | h | h
        · simp [colunas_desejadas, h]
        · simp [colunas_desejadas, h]
        · simp [colunas_desejadas, h]
        · simp [colunas_desejadas, h]
        · exact absurd h hfc
      simp [filtrar_e_preparar_alunos, hflex]
      intro _
      exact ⟨campo, hdes, h2⟩

/-- C7 — Missing column: when a required field (nome, turma, RM, numero or
Flex) is absent from a student source's schema, pool construction fails
with the modelled `KeyError` (the Python `MissingColumnError` surface), and
the whole pipeline fails whichever of the two sources the bad one is — the
failure happens before any allocation and no partial pool is produced. -/
theorem coluna_ausente
    (sh sh1 sh2 : List (String → Value) → List (String → Value))
    (df df1 df2 : DataFrame) (wb : String → Aba) (abas_salas : List String)
    (ret : String → Option (List (Nat × Nat))) (campo : String)
    (h1 : campo ∈ colunas_obrigatorias) (h2 : campo ∉ df.cols) :
    filtrar_e_preparar_alunos sh df = .error .keyError ∧
    (pipeline sh sh2 df df2 wb abas_salas ret).isOk = false ∧
    (pipeline sh1 sh df1 df wb abas_salas ret).isOk = false := by
  have hf := filtrar_coluna_ausente sh df campo h1 h2
  refine ⟨hf, ?_, ?_⟩
  · rw [pipeline, hf]
    rfl
  · rw [pipeline]
    cases hx : filtrar_e_preparar_alunos sh1 df1 with
    | error e => rfl
    | ok a1 =>
        rw [hf]
        rfl

/-- Witness for C7: a source without the Flex column makes pool
construction and both pipeline positions fail. -/
theorem coluna_ausente_witness :
    filtrar_e_preparar_alunos id exDfSemFlex = .error .keyError ∧
    (pipeline id id exDfSemFlex exDfSemFlex exWb ["S"] exRet).isOk = false ∧
    (pipeline id id exDfSemFlex exDfSemFlex exWb ["S"] exRet).isOk = false :=
  coluna_ausente id id id exDfSemFlex exDfSemFlex exDfSemFlex exWb ["S"] exRet
    "Flex" (by simp [colunas_obrigatorias]) (by simp [exDfSemFlex])

theorem enum_filterMap_eq_range {α β : Type} (d : α) :
    ∀ (l : List α) (f : Nat → α → Option β),
      (l.enum.filterMap fun p => f p.1 p.2) =
        (List.range l.length).filterMap (fun i => f i (l.getD i d)) := by
  intro l
  induction l with
  | nil => intro f; rfl
  | cons x xs ih =>
      intro f
      have htail :
          (xs.enum.map (Prod.map (· + 1) id)).filterMap (fun p => f p.1 p.2) =
            ((List.range xs.length).map Nat.succ).filterMap
              (fun i => f i ((x :: xs).getD i d)) := by
        rw [List.filterMap_map, List.filterMap_map]
        have h1 : ((fun p : Nat × α => f p.1 p.2) ∘ Prod.map (· + 1) id) =
            (fun p : Nat × α => f (p.1 + 1) p.2) := by
          funext p
          cases p
          rfl
        have h2 : ((fun i => f i ((x :: xs).getD i d)) ∘ Nat.succ) =
            (fun i => f (i + 1) (xs.getD i d)) := by
          funext i
          simp
        rw [h1, h2]
        exact ih (fun i a => f (i + 1) a)
      rw [List.enum_cons', List.filterMap_cons, List.length_cons,
        List.range_succ_eq_map, List.filterMap_cons, htail]
      simp [List.getD_cons_zero]

theorem enum_flatMap_eq_range {α β : Type} (d : α) :
    ∀ (l : List α) (f : Nat → α → List β),
      (l.enum.flatMap fun p => f p.1 p.2) =
        (List.range l.length).flatMap (fun i => f i (l.getD i d)) := by
  intro l
  induction l with
  | nil => intro f; rfl
  | cons x xs ih =>
      intro f
      have htail :
          (xs.enum.map (Prod.map (· + 1) id)).flatMap (fun p => f p.1 p.2) =
            ((List.range xs.length).map Nat.succ).flatMap
              (fun i => f i ((x :: xs).getD i d)) := by
        rw [List.flatMap_map, List.flatMap_map]
        have h1 : ∀ p : Nat × α,
            f (Prod.map (· + 1) id p).1 (Prod.map (· + 1) id p).2 =
              f (p.1 + 1) p.2 := by
          intro p
          cases p
          rfl
        calc (xs.enum.flatMap fun p =>
                f (Prod.map (· + 1) id p).1 (Prod.map (· + 1) id p).2)
            = xs.enum.flatMap (fun p => f (p.1 + 1) p.2) := by
              apply congrArg
              funext p
              rw [h1 p]
          _ = (List.range xs.length).flatMap (fun i => f (i + 1) (xs.getD i d)) :=
              ih (fun i a => f (i + 1) a)
          _ = (List.range xs.length).flatMap
                (fun i => f (Nat.succ i) ((x :: xs).getD (Nat.succ i) d)) := by
              apply congrArg
              funext i
              simp
      rw [List.enum_cons', List.flatMap_cons, List.length_cons,
        List.range_succ_eq_map, List.flatMap_cons, htail]
      simp [List.getD_cons_zero]

/-- C8 (amended) — Flatten contract: the flattener emits exactly one record
per non-empty cell with 1-based row and column numbers, rooms in input
iteration order, row indices ascending, then column indices ascending —
row-major order, which is NOT the column-major traversal the allocation
uses. -/
theorem achatamento (mapas : List (String × Grid)) (d : String) :
    gerar_lista_por_turma_global mapas d = flattenSpec mapas d := by
  rw [gerar_lista_por_turma_global, flattenSpec]
  apply congrArg
  funext ps
  calc ps.2.enum.flatMap (fun pl =>
        pl.2.enum.filterMap (fun pc =>
          pc.2.map (fun assento =>
            (⟨assento.turma, assento.nome, assento.RM, assento.numero,
              ps.1, pl.1 + 1, pc.1 + 1, d⟩ : Registro))))
      = (List.range ps.2.length).flatMap (fun lin =>
          (ps.2.getD lin []).enum.filterMap (fun pc =>
            pc.2.map (fun assento =>
              (⟨assento.turma, assento.nome, assento.RM, assento.numero,
                ps.1, lin + 1, pc.1 + 1, d⟩ : Registro)))) :=
        enum_flatMap_eq_range [] ps.2 (fun lin row =>
          row.enum.filterMap (fun pc =>
            pc.2.map (fun assento =>
              (⟨assento.turma, assento.nome, assento.RM, assento.numero,
                ps.1, lin + 1, pc.1 + 1, d⟩ : Registro))))
    _ = (List.range ps.2.length).flatMap (fun lin =>
          (List.range (ps.2.getD lin []).length).filterMap (fun col =>
            (getCell ps.2 lin col).map (fun a =>
              (⟨a.turma, a.nome, a.RM, a.numero,
                ps.1, lin + 1, col + 1, d⟩ : Registro)))) := by
        apply congrArg
        funext lin
        exact enum_filterMap_eq_range none (ps.2.getD lin []) (fun col c =>
          c.map (fun a =>
            (⟨a.turma, a.nome, a.RM, a.numero,
              ps.1, lin + 1, col + 1, d⟩ : Registro)))

/-- C8 counterexample — the flattener does NOT emit records in the same
traversal order as allocation: for a fully occupied 2-by-2 room it emits
positions row-major, (1,1),(1,2),(2,1),(2,2), while the allocation visits
column-major, (1,1),(2,1),(1,2),(2,2). -/
theorem achatamento_counterexample :
    ((gerar_lista_por_turma_global exMapasCheio "d").map
        (fun r => (r.linha, r.coluna)) =
      [(1, 1), (1, 2), (2, 1), (2, 2)]) ∧
    ordemAlocacao 2 2 = [(1, 1), (2, 1), (1, 2), (2, 2)] ∧
    (gerar_lista_por_turma_global exMapasCheio "d").map
        (fun r => (r.linha, r.coluna)) ≠ ordemAlocacao 2 2 :=
  ⟨rfl, rfl, by decide⟩

end MapaProvas

